import Mathlib

/-!
Shallow embedding of the bulletin-board server of src/server.py.

Modelling conventions.  Python dicts are association lists kept in
insertion order (assignment replaces the value of an existing key in
place, otherwise appends at the end); Python lists are Lean lists; the
calendar date is a record of numerals; a thread crash caused by an
uncaught exception (KeyError, ValueError, TypeError, NameError) is the
value none.  Every socket send performed by a handler is recorded as a
pair of the receiving session id and the text sent, in send order; the
socket objects themselves are omitted from the session records.
-/

namespace BulletinBoard

/-- Python dict assignment d[k] = v on an association list in insertion
order: replace in place when the key is present, else append at the end. -/
def alistSet {α β : Type} [BEq α] : List (α × β) → α → β → List (α × β)
  | [], k, v => [(k, v)]
  | (k1, v1) :: rest, k, v =>
    if k1 == k then (k, v) :: rest else (k1, v1) :: alistSet rest k v

/-- Python dict.pop on an association list: drop the entry of the key. -/
def alistErase {α β : Type} [BEq α] : List (α × β) → α → List (α × β)
  | [], _ => []
  | (k1, v1) :: rest, k => if k1 == k then rest else (k1, v1) :: alistErase rest k

/-- Accumulate one decimal digit character, as Python int parsing does. -/
def pyStep (a : Nat) (c : Char) : Nat := a * 10 + (c.toNat - 48)

/-- Digits of a Python int literal after the first one: plain decimal
digits, where a single underscore may stand between two digits.  The
Bool flag records that the previous character was an underscore, which
must be followed by a digit and may not end the literal. -/
def pyDigitsLoop : List Char → Nat → Bool → Option Nat
  | [], acc, afterUnderscore => if afterUnderscore then none else some acc
  | c :: rest, acc, afterUnderscore =>
    if afterUnderscore then
      if c.isDigit then pyDigitsLoop rest (pyStep acc c) false else none
    else if c == '_' then pyDigitsLoop rest acc true
    else if c.isDigit then pyDigitsLoop rest (pyStep acc c) false
    else none

/-- Digits of a Python int literal after the first one. -/
def pyDigitsAux (l : List Char) (acc : Nat) : Option Nat := pyDigitsLoop l acc false

/-- Unsigned part of Python int parsing: at least one leading digit. -/
def pyParseNat : List Char → Option Nat
  | [] => none
  | c :: rest => if c.isDigit then pyDigitsAux rest (pyStep 0 c) else none

/-- Strip of surrounding whitespace that Python int applies to a string. -/
def stripPy (l : List Char) : List Char :=
  ((l.dropWhile Char.isWhitespace).reverse.dropWhile Char.isWhitespace).reverse

/-- Model of the Python built-in int applied to a string: surrounding
whitespace is stripped, an optional single sign precedes the digits, and
failure (ValueError) is none. -/
def pyParseInt (str : String) : Option Int :=
  match stripPy str.toList with
  | [] => none
  | c :: rest =>
    if c == '+' then (pyParseNat rest).map Int.ofNat
    else if c == '-' then (pyParseNat rest).map (fun n => -(Int.ofNat n))
    else (pyParseNat (c :: rest)).map Int.ofNat

/-- Worker of natDecimalDigits, structurally recursive on a fuel bound
so that the kernel can evaluate it on concrete numerals. -/
def natDecimalDigitsGo : Nat → Nat → List Char
  | 0, _ => []
  | fuel + 1, n =>
    if n < 10 then [Nat.digitChar n]
    else natDecimalDigitsGo fuel (n / 10) ++ [Nat.digitChar (n % 10)]

/-- Decimal digit characters of a natural number, most significant first:
the model of the Python built-in str applied to a non-negative int. -/
def natDecimalDigits (n : Nat) : List Char := natDecimalDigitsGo (n + 1) n

/-- Python str of a non-negative int. -/
def pyStrNat (n : Nat) : String := String.mk (natDecimalDigits n)

/-- Split a character list on every single space character, the model of
the Python str.split method with a one-space separator: consecutive
separators yield empty fields, and the empty text yields one empty field. -/
def splitSpaceChars : List Char → List (List Char)
  | [] => [[]]
  | c :: rest =>
    if c == ' ' then [] :: splitSpaceChars rest
    else
      match splitSpaceChars rest with
      | [] => [[c]]
      | w :: ws => (c :: w) :: ws

/-- Python str.split with a one-space separator, on strings. -/
def pySplitSpace (s : String) : List String :=
  (splitSpaceChars s.toList).map String.mk

/-- Insert into a sorted list of naturals, keeping it sorted. -/
def insertSorted (x : Nat) : List Nat → List Nat
  | [] => [x]
  | y :: ys => if x ≤ y then x :: y :: ys else y :: insertSorted x ys

/-- Model of the Python built-in sorted on a list of naturals. -/
def sortNat (l : List Nat) : List Nat := l.foldr insertSorted []

/-- Calendar date, the model of datetime.date. -/
structure Date where
  year : Nat
  month : Nat
  day : Nat
  deriving DecidableEq

/-- Zero-padded two-digit field of an ISO-8601 date. -/
def pad2 (n : Nat) : String := if n < 10 then "0" ++ pyStrNat n else pyStrNat n

/-- Zero-padded four-digit year field of an ISO-8601 date. -/
def pad4 (n : Nat) : String :=
  if n < 10 then "000" ++ pyStrNat n
  else if n < 100 then "00" ++ pyStrNat n
  else if n < 1000 then "0" ++ pyStrNat n
  else pyStrNat n

/-- ISO-8601 rendering of a date, the model of Python str on a date. -/
def isoformat (d : Date) : String :=
  pad4 d.year ++ "-" ++ pad2 d.month ++ "-" ++ pad2 d.day

/-- One stored board message, the value dict built in handle_post. -/
structure Message where
  sender : String
  date : Date
  subject : String
  message : String
  users_at_time_of_posting : List String
  deriving DecidableEq

/-- One entry of the connected_clients dict (the socket is omitted). -/
structure ClientInfo where
  name : String
  group : String
  deriving DecidableEq

/-- The mutable server state: client id counter, session registry,
group directory and board store, in dict insertion order. -/
structure ServerState where
  client_ids : Nat
  connected_clients : List (Nat × ClientInfo)
  groups : List (String × List String)
  boards : List (String × List (Nat × Message))
  deriving DecidableEq

/-- Outputs of a handler: pairs of receiving session id and sent text. -/
abbrev Sends := List (Nat × String)

def notMemberMsg : String := "Error: Client not member of group."

def notFoundMsg : String := "Error: Message ID does not exist."

def tooFarMsg : String :=
  "Error: You are trying to access a message from too far in the past from when you joined the current group. (Limit: 2)"

def alreadyMemberMsg (group : String) : String :=
  "Already part of group \x27" ++ group ++ "\x27."

def addedNewGroupMsg (group : String) : String :=
  "Added to new group \x27" ++ group ++ "\x27."

def newMemberMsg (name group : String) : String :=
  "New member " ++ name ++ " has joined group \x27" ++ group ++ "\x27."

def leftGroupMsg (group : String) : String :=
  "You have left group \x27" ++ group ++ "\x27."

def userLeftMsg (name group : String) : String :=
  "User " ++ name ++ " has left group \x27" ++ group ++ "\x27."

def notMemberOfMsg (group : String) : String :=
  "Error: Client not member of group \x27" ++ group ++ "\x27."

def post_notice (group sender : String) (message_id : Nat) : String :=
  "New message posted in " ++ group ++ " by " ++ sender ++ " with ID#" ++ pyStrNat message_id ++ "."

/-- Formatted message body sent on a successful read (lines 325 and 330). -/
def message_text (m : Message) : String :=
  m.sender ++ " on " ++ isoformat m.date ++ " (" ++ m.subject ++ "): " ++ m.message

/-- Server.handle_post (lines 285-306).  The sender must be a member of
the group; the new message id is the current size of the board; the
members-at-post snapshot is a deep copy of the member list; the notice
is then sent to every connected session whose name is in the group. -/
def handle_post (s : ServerState) (client_id : Nat) (group subject : String)
    (message : List String) (today : Date) : Option (ServerState × Sends) :=
  match s.connected_clients.lookup client_id, s.groups.lookup group with
  | some info, some members =>
    if info.name ∈ members then
      match s.boards.lookup group with
      | some board =>
        let message_id := board.length
        let msg : Message :=
          { sender := info.name, date := today, subject := subject,
            message := String.intercalate " " message,
            users_at_time_of_posting := members }
        let s1 : ServerState :=
          { s with boards := alistSet s.boards group (alistSet board message_id msg) }
        let outs : Sends := s.connected_clients.filterMap fun p =>
          if p.2.name ∈ members then some (p.1, post_notice group info.name message_id)
          else none
        some (s1, outs)
      | none => none
    else
      some (s, [(client_id, notMemberMsg)])
  | _, _ => none

/-- Server.handle_join (lines 253-283).  A missing group is created with
the caller as sole member and an empty board; an existing membership is
answered without any state change; otherwise the caller is appended, the
other connected members of the group are notified, and the reply carries
the member list plus a catch-up listing of the up to 2 largest ids. -/
def handle_join (s : ServerState) (client_id : Nat) (group : String) :
    Option (ServerState × Sends) :=
  match s.connected_clients.lookup client_id with
  | none => none
  | some info =>
    match s.groups.lookup group with
    | none =>
      let s1 : ServerState :=
        { s with groups := alistSet s.groups group [info.name],
                 boards := alistSet s.boards group [] }
      some (s1, [(client_id, addedNewGroupMsg group)])
    | some members =>
      if info.name ∈ members then
        some (s, [(client_id, alreadyMemberMsg group)])
      else
        let members1 := members ++ [info.name]
        let s1 : ServerState := { s with groups := alistSet s.groups group members1 }
        let broadcasts : Sends := s.connected_clients.filterMap fun p =>
          if p.2.name ≠ info.name ∧ p.2.name ∈ members1 then
            some (p.1, newMemberMsg info.name group)
          else none
        match s.boards.lookup group with
        | none => none
        | some board =>
          let messages_text :=
            if board.length > 0 then
              let sorted_items := sortNat (board.map Prod.fst)
              let last_two_items := sorted_items.drop (sorted_items.length - 2)
              "\nPrevious messages:\n" ++
                String.join (last_two_items.map fun k => "Message ID: " ++ pyStrNat k ++ " + \n")
            else "\nNo previous messages."
          let reply := "Added to group \x27" ++ group ++ "\x27.\nCurrent Members: " ++
            String.intercalate ", " members1 ++ messages_text
          some (s1, broadcasts ++ [(client_id, reply)])

/-- Server.handle_message (lines 308-335).  Membership is checked first;
the try block around the board lookup turns a parse failure or a missing
id into the not-found reply; a reader absent from the members-at-post
snapshot falls into a branch that re-tests that same membership before
granting access, so that branch can only produce the too-far reply. -/
def handle_message (s : ServerState) (client_id : Nat) (group message_id : String) :
    Option Sends :=
  match s.connected_clients.lookup client_id, s.groups.lookup group with
  | some info, some members =>
    if info.name ∈ members then
      let found : Option Message :=
        match pyParseInt message_id with
        | none => none
        | some i =>
          if i < 0 then none
          else
            match s.boards.lookup group with
            | none => none
            | some board => board.lookup i.toNat
      match found with
      | none => some [(client_id, notFoundMsg)]
      | some m =>
        if info.name ∉ m.users_at_time_of_posting then
          if info.name ∈ m.users_at_time_of_posting then
            some [(client_id, message_text m)]
          else
            some [(client_id, tooFarMsg)]
        else
          some [(client_id, message_text m)]
    else
      some [(client_id, notMemberMsg)]
  | _, _ => none

/-- Server.handle_leave (lines 337-355).  Membership is checked, the
first occurrence of the name is removed, the caller is answered, and the
remaining connected members of the group are notified. -/
def handle_leave (s : ServerState) (client_id : Nat) (group : String) :
    Option (ServerState × Sends) :=
  match s.connected_clients.lookup client_id, s.groups.lookup group with
  | some info, some members =>
    if info.name ∈ members then
      let members1 := members.erase info.name
      let s1 : ServerState := { s with groups := alistSet s.groups group members1 }
      let broadcasts : Sends := s.connected_clients.filterMap fun p =>
        if p.2.name ∈ members1 then some (p.1, userLeftMsg info.name group) else none
      some (s1, (client_id, leftGroupMsg group) :: broadcasts)
    else
      some (s, [(client_id, notMemberOfMsg group)])
  | _, _ => none

/-- Server.add_clients_groups (lines 203-238): register the session,
lazily create or extend the connect group, then make sure a board exists
for the default group and for every group of the directory. -/
def add_clients_groups (s : ServerState) (client_id : Nat)
    (client_name client_group : String) : ServerState :=
  let connected := alistSet s.connected_clients client_id ⟨client_name, client_group⟩
  let groups1 :=
    match s.groups.lookup client_group with
    | none => alistSet s.groups client_group [client_name]
    | some members =>
      if client_name ∈ members then s.groups
      else alistSet s.groups client_group (members ++ [client_name])
  let boards1 :=
    if (s.boards.lookup ("default")).isNone then alistSet s.boards ("default") []
    else s.boards
  let boards2 := groups1.foldl
    (fun bds p => if (bds.lookup p.1).isNone then alistSet bds p.1 [] else bds) boards1
  { client_ids := s.client_ids + 1, connected_clients := connected,
    groups := groups1, boards := boards2 }

/-- Lines 102-107 of open_connection: the group listing of the handshake
reply.  The slice of the first 5 group names is taken first, and the
ellipsis test is made on the length of that slice; when no group exists
the message variable is never bound and line 110 raises NameError. -/
def example_groups_message (groups : List (String × List String)) : Option String :=
  let example_groups := (groups.map Prod.fst).take 5
  if example_groups.length > 0 then
    let m := " Current server groups: " ++ String.intercalate ", " example_groups
    some (if example_groups.length > 5 then m ++ "..." else m)
  else none

/-- Line 110 of open_connection: the full handshake reply. -/
def handshake_reply (client_id : Nat) (groups : List (String × List String)) :
    Option String :=
  (example_groups_message groups).map fun m => "id " ++ pyStrNat client_id ++ m

/-- Fate of the dispatch loop after one request: fall through to the
next iteration, leave the loop through a break statement, or return
through the exit command. -/
inductive LoopOutcome where
  | next
  | terminated
  | exited
  deriving DecidableEq

/-- Static help text of lines 121-135. -/
def help_msg : String :=
  "A %connect command followed by the address and port number of a running bulletin board server to connect to.\nA %join command to join the single message board.\nA %post command followed by the message subject and the message content or main body to post a message to the board.\nA %users command to retrieve a list of users in the same group.\nA %leave command to leave the group.\nA %message command followed by message ID to retrieve the content of the message.\nAn %exit command to disconnect from the server and exit the client program.\nA %groups command to retrieve a list of all groups that can be joined.\nA %groupjoin command followed by the group id/name to join a specific group.\nA %grouppost command followed by the group id/name, the message subject, and the message content or main body to post a message to a message board owned by a specific group.\nA %groupusers command followed by the group id/name to retrieve a list of users in the given group.\nA %groupleave command followed by the group id/name and message ID to retrieve the content of the message posted earlier on a message board owned by a specific group."

def missingSubjectMsg : String := "Error: Missing subject or message."

def missingIdMsg : String := "Error: Missing message ID."

def invalidGroupjoinMsg : String :=
  "Invalid %groupsjoin command. Please supply a group name to join."

def missingGroupSubjectMsg : String := "Error: Missing group, subject, or message."

def invalidGroupNameMsg : String := "Error: Invalid group name"

def invalidGroupNameDotMsg : String := "Error: Invalid group name."

def missingGroupIdMsg : String := "Error: Missing group ID or message ID."

def disconnectedMsg : String := "You have been disconnected from the server."

def invalidCommandMsg : String := "Invalid command."

/-- One iteration of the match statement of the dispatch loop
(lines 117-201), after the request was split on single spaces into the
command verb and its parameters.  A break statement inside a case arm
leaves the enclosing while loop, recorded as the terminated outcome; the
exit command returns from the worker, recorded as the exited outcome;
calling a handler with a parameter count its signature refuses raises
TypeError, modelled as none. -/
def dispatch_command (s : ServerState) (client_id : Nat) (client_name : String)
    (command : String) (params : List String) (today : Date) :
    Option (ServerState × Sends × LoopOutcome) :=
  if command == "help" then
    some (s, [(client_id, help_msg)], .next)
  else if command == "join" then
    match handle_join s client_id ("default") with
    | some (s1, outs) => some (s1, outs, .next)
    | none => none
  else if command == "post" then
    if params.length < 2 then
      some (s, [(client_id, missingSubjectMsg)], .terminated)
    else
      match params with
      | subject :: rest =>
        match handle_post s client_id ("default") subject rest today with
        | some (s1, outs) => some (s1, outs, .next)
        | none => none
      | [] => none
  else if command == "users" then
    match s.groups.lookup ("default") with
    | some members =>
      some (s, [(client_id, "Users in \x27default\x27: " ++ String.intercalate ", " members)], .next)
    | none => none
  else if command == "leave" then
    match handle_leave s client_id ("default") with
    | some (s1, outs) => some (s1, outs, .next)
    | none => none
  else if command == "message" then
    if params.length < 1 then
      some (s, [(client_id, missingIdMsg)], .terminated)
    else
      match params with
      | [message_id] =>
        match handle_message s client_id ("default") message_id with
        | some outs => some (s, outs, .next)
        | none => none
      | _ => none
  else if command == "exit" then
    match s.connected_clients.lookup client_id with
    | some _ =>
      some ({ s with connected_clients := alistErase s.connected_clients client_id },
        [(client_id, disconnectedMsg)], .exited)
    | none => none
  else if command == "groups" then
    some (s, [(client_id,
      ("Available groups: " ++ String.join ((s.groups.map Prod.fst).map (fun g => g ++ ", "))).dropRight 2)],
      .next)
  else if command == "groupjoin" then
    if params.length != 1 then
      some (s, [(client_id, invalidGroupjoinMsg)], .terminated)
    else
      match params with
      | [g] =>
        match handle_join s client_id g with
        | some (s1, outs) => some (s1, outs, .next)
        | none => none
      | _ => none
  else if command == "grouppost" then
    if params.length < 3 then
      some (s, [(client_id, missingGroupSubjectMsg)], .terminated)
    else
      match params with
      | g :: subject :: rest =>
        match handle_post s client_id g subject rest today with
        | some (s1, outs) => some (s1, outs, .next)
        | none => none
      | _ => none
  else if command == "groupusers" then
    match params with
    | [] => some (s, [(client_id, invalidGroupNameMsg)], .terminated)
    | g :: _ =>
      match s.groups.lookup g with
      | none => some (s, [(client_id, invalidGroupNameMsg)], .terminated)
      | some members =>
        if client_name ∈ members then
          some (s, [(client_id, "Users in \x27" ++ g ++ "\x27: " ++ String.intercalate ", " members)], .next)
        else
          some (s, [(client_id, notMemberOfMsg g)], .terminated)
  else if command == "groupleave" then
    match params with
    | [] => some (s, [(client_id, invalidGroupNameDotMsg)], .terminated)
    | g :: _ =>
      if (s.groups.lookup g).isNone then
        some (s, [(client_id, invalidGroupNameDotMsg)], .terminated)
      else
        match handle_leave s client_id g with
        | some (s1, outs) => some (s1, outs, .next)
        | none => none
  else if command == "groupmessage" then
    if params.length < 2 then
      some (s, [(client_id, missingGroupIdMsg)], .terminated)
    else
      match params with
      | [g, message_id] =>
        match handle_message s client_id g message_id with
        | some outs => some (s, outs, .next)
        | none => none
      | _ => none
  else
    some (s, [(client_id, invalidCommandMsg)], .next)

/-- One iteration of the dispatch loop on a raw request line: lines
117-118 split the received text on single spaces, the head is the
command verb and the tail the parameter list. -/
def dispatch_data (s : ServerState) (client_id : Nat) (client_name : String)
    (data : String) (today : Date) : Option (ServerState × Sends × LoopOutcome) :=
  match pySplitSpace data with
  | [] => none
  | command :: params => dispatch_command s client_id client_name command params today

/-- Serialized form of a stored message: the date field is replaced by
its ISO-8601 rendering, which json.dump writes through
default_serializer (lines 29-33) and which load never converts back. -/
structure SerMessage where
  sender : String
  date : String
  subject : String
  message : String
  users_at_time_of_posting : List String
  deriving DecidableEq

/-- Serialization of one message as written into boards.json. -/
def serializeMessage (m : Message) : SerMessage :=
  { sender := m.sender, date := isoformat m.date, subject := m.subject,
    message := m.message, users_at_time_of_posting := m.users_at_time_of_posting }

/-- Server.server_shutdown writing boards.json (lines 42-43): json.dump
renders every integer message id as its decimal string key. -/
def dumpBoards (bs : List (String × List (Nat × Message))) :
    List (String × List (String × SerMessage)) :=
  bs.map fun p => (p.1, p.2.map fun q => (pyStrNat q.1, serializeMessage q.2))

/-- Inner dict comprehension of line 65: every string key is passed to
int; a key that does not parse raises and is modelled as none, and a
negative key is out of the domain of the Nat-keyed board model (the
server never writes one). -/
def loadEntries : List (String × SerMessage) → Option (List (Nat × SerMessage))
  | [] => some []
  | q :: rest =>
    match pyParseInt q.1 with
    | none => none
    | some i =>
      if i < 0 then none
      else
        match loadEntries rest with
        | none => none
        | some rest1 => some ((i.toNat, q.2) :: rest1)

/-- Line 65 of server_startup: convert the keys of every loaded board
back to integers. -/
def loadBoards : List (String × List (String × SerMessage)) →
    Option (List (String × List (Nat × SerMessage)))
  | [] => some []
  | p :: rest =>
    match loadEntries p.2 with
    | none => none
    | some entries =>
      match loadBoards rest with
      | none => none
      | some rest1 => some ((p.1, entries) :: rest1)

/-- Serialization of groups.json (lines 40-41 and 57-59): a JSON object
from group name to list of member names, dumped and loaded back without
any conversion, so the round trip is the identity on the modelled shape. -/
def dumpGroups (gs : List (String × List String)) : List (String × List String) := gs

/-- Loading of groups.json back at startup (lines 57-59). -/
def loadGroups (gs : List (String × List String)) : List (String × List String) := gs

section AListLemmas

variable {α β : Type} [BEq α] [LawfulBEq α]

theorem lookup_alistSet_self (l : List (α × β)) (k : α) (v : β) :
    (alistSet l k v).lookup k = some v := by
  induction l with
  | nil => simp [alistSet, List.lookup]
  | cons p rest ih =>
    obtain ⟨k1, v1⟩ := p
    by_cases h : k1 = k
    · subst h; simp [alistSet, List.lookup]
    · have hb : (k1 == k) = false := by simp [h]
      have hb2 : (k == k1) = false := by simp [Ne.symm h]
      simp [alistSet, hb, List.lookup, hb2, ih]

theorem lookup_alistSet_ne (l : List (α × β)) (k k2 : α) (v : β) (h : k2 ≠ k) :
    (alistSet l k v).lookup k2 = l.lookup k2 := by
  have hb0 : (k2 == k) = false := by simp [h]
  induction l with
  | nil => simp [alistSet, List.lookup, hb0]
  | cons p rest ih =>
    obtain ⟨k1, v1⟩ := p
    by_cases h1 : k1 = k
    · subst h1
      simp [alistSet, List.lookup, hb0]
    · have hb : (k1 == k) = false := by simp [h1]
      simp only [alistSet, hb, if_false, List.lookup]
      by_cases h2 : k2 = k1
      · subst h2; simp
      · have hb2 : (k2 == k1) = false := by simp [h2]
        simp [hb2, ih]

theorem alistSet_eq_append (l : List (α × β)) (k : α) (v : β)
    (h : l.lookup k = none) : alistSet l k v = l ++ [(k, v)] := by
  induction l with
  | nil => simp [alistSet]
  | cons p rest ih =>
    obtain ⟨k1, v1⟩ := p
    simp only [List.lookup] at h
    by_cases h1 : k = k1
    · subst h1; simp at h
    · have hb : (k == k1) = false := by simp [h1]
      have hb2 : (k1 == k) = false := by simp [Ne.symm h1]
      rw [hb] at h
      simp only [alistSet, hb2, if_false, List.cons_append]
      simp only [ih h]
      simp

theorem mem_keys_of_lookup_some (l : List (α × β)) (k : α) (v : β)
    (h : l.lookup k = some v) : k ∈ l.map Prod.fst := by
  induction l with
  | nil => simp [List.lookup] at h
  | cons p rest ih =>
    obtain ⟨k1, v1⟩ := p
    simp only [List.lookup] at h
    by_cases h1 : k = k1
    · subst h1; simp
    · have hb : (k == k1) = false := by simp [h1]
      rw [hb] at h
      simp [ih h]

theorem lookup_eq_none_of_not_mem_keys (l : List (α × β)) (k : α)
    (h : k ∉ l.map Prod.fst) : l.lookup k = none := by
  cases hl : l.lookup k with
  | none => rfl
  | some v => exact absurd (mem_keys_of_lookup_some l k v hl) h

theorem mem_of_lookup_some (l : List (α × β)) (k : α) (v : β)
    (h : l.lookup k = some v) : (k, v) ∈ l := by
  induction l with
  | nil => simp [List.lookup] at h
  | cons p rest ih =>
    obtain ⟨k1, v1⟩ := p
    simp only [List.lookup] at h
    by_cases h1 : k = k1
    · subst h1
      simp at h
      simp [h]
    · have hb : (k == k1) = false := by simp [h1]
      rw [hb] at h
      simp [ih h]

theorem lookup_some_alistSet_new (l : List (α × β)) (k knew : α) (v w : β)
    (hnew : l.lookup knew = none) (h : l.lookup k = some v) :
    (alistSet l knew w).lookup k = some v := by
  have hne : k ≠ knew := by
    intro e; subst e; rw [h] at hnew; cases hnew
  rw [lookup_alistSet_ne l knew k w hne, h]

end AListLemmas

/-- Fixed posting date used by the concrete scenarios. -/
def d0 : Date := ⟨2026, 10, 12⟩

/-- Reusable message: posted by alice while she was the only member. -/
def msgA : Message := ⟨"alice", d0, "s", "b", ["alice"]⟩

/-- State with one connected session, alice, sole member of group g. -/
def sAlice : ServerState :=
  ⟨1, [(0, ⟨"alice", "g"⟩)], [("default", []), ("g", ["alice"])],
    [("default", []), ("g", [])]⟩

/-- State with sessions alice and bob, both members of group g. -/
def sTwo : ServerState :=
  ⟨2, [(0, ⟨"alice", "g"⟩), (1, ⟨"bob", "g"⟩)],
    [("default", []), ("g", ["alice", "bob"])], [("default", []), ("g", [])]⟩

/-- State where group g holds messages 0..7, all posted by alice alone. -/
def sEight : ServerState :=
  ⟨1, [(0, ⟨"alice", "g"⟩)], [("g", ["alice"])],
    [("g", (List.range 8).map (fun i => (i, msgA)))]⟩

/-- C1 scenario: alice posts message 0 to g while alone; bob connects and
joins g when the board size is 1, so the join point of the specification
is 1 and message 0 lies inside the catch-up window 0 >= 1 - 2; bob then
asks to read message 0. -/
def catchup_read_run : Option Sends :=
  match handle_post sAlice 0 ("g") ("Welcome") [("Hi"), ("all")] d0 with
  | none => none
  | some (s1, _) =>
    let s2 := add_clients_groups s1 1 ("bob") ("default")
    match handle_join s2 1 ("g") with
    | none => none
    | some (s3, _) => handle_message s3 1 ("g") ("0")

/-- C1: the code answers a read inside the catch-up window with the
too-far reply.  Bob joined g at board size 1, so the claimed rule grants
message 0 (0 >= 1 - 2 holds), yet handle_message only ever consults the
members-at-post snapshot, which does not hold bob, and replies Forbidden:
the claimed catch-up window does not exist in the code. -/
theorem catchup_window_read_gets_forbidden :
    catchup_read_run = some [(1, tooFarMsg)] := by rfl

/-- C5: whenever the caller is a member of the group, the id names an
existing message, and the caller is absent from the members-at-post
snapshot of that message, handle_message replies with the too-far error:
the inner branch of lines 322-328 re-tests the predicate just
established false, so it can never grant access. -/
theorem snapshot_absent_always_too_far (s : ServerState) (cid : Nat)
    (g p : String) (info : ClientInfo) (members : List String) (i : Int)
    (board : List (Nat × Message)) (m : Message)
    (h1 : s.connected_clients.lookup cid = some info)
    (h2 : s.groups.lookup g = some members)
    (h3 : info.name ∈ members)
    (hp : pyParseInt p = some i)
    (hi : ¬ i < 0)
    (hb : s.boards.lookup g = some board)
    (hm : board.lookup i.toNat = some m)
    (hnot : info.name ∉ m.users_at_time_of_posting) :
    handle_message s cid g p = some [(cid, tooFarMsg)] := by
  simp [handle_message, h1, h2, h3, hp, hi, hb, hm, hnot]

/-- Witness for C5: bob, a current member of g, reads message 0 whose
snapshot only holds alice, and receives the too-far reply. -/
theorem snapshot_absent_always_too_far_witness :
    sTwo.connected_clients.lookup 1 = some ⟨"bob", "g"⟩
    ∧ sTwo.groups.lookup ("g") = some ["alice", "bob"]
    ∧ ("bob" : String) ∈ ["alice", "bob"]
    ∧ pyParseInt ("0") = some 0
    ∧ [(0, msgA)].lookup (Int.toNat 0) = some msgA
    ∧ ("bob" : String) ∉ msgA.users_at_time_of_posting
    ∧ handle_message { sTwo with boards := [("g", [(0, msgA)])] } 1 ("g") ("0") =
        some [(1, tooFarMsg)] :=
  ⟨rfl, rfl, by decide, rfl, rfl, by decide,
    snapshot_absent_always_too_far _ 1 ("g") ("0") ⟨"bob", "g"⟩ ["alice", "bob"] 0
      [(0, msgA)] msgA rfl rfl (by decide) rfl (by decide) rfl rfl (by decide)⟩

/-- C8: a join request for an existing group by a caller who is already
a member answers with the already-a-member reply, returns the state
unchanged, and sends nothing to any other session. -/
theorem join_already_member_is_noop (s : ServerState) (cid : Nat) (g : String)
    (info : ClientInfo) (members : List String)
    (h1 : s.connected_clients.lookup cid = some info)
    (h2 : s.groups.lookup g = some members)
    (h3 : info.name ∈ members) :
    handle_join s cid g = some (s, [(cid, alreadyMemberMsg g)]) := by
  simp [handle_join, h1, h2, h3]

/-- Witness for C8: alice rejoining g is answered without state change. -/
theorem join_already_member_is_noop_witness :
    sAlice.connected_clients.lookup 0 = some ⟨"alice", "g"⟩
    ∧ sAlice.groups.lookup ("g") = some ["alice"]
    ∧ ("alice" : String) ∈ ["alice"]
    ∧ handle_join sAlice 0 ("g") = some (sAlice, [(0, alreadyMemberMsg ("g"))]) :=
  ⟨rfl, rfl, by decide,
    join_already_member_is_noop sAlice 0 ("g") ⟨"alice", "g"⟩ ["alice"] rfl rfl (by decide)⟩

/-- C3: each recognised verb with a wrong parameter count sends exactly
one descriptive error reply and leaves the state untouched, but the
break statement of its case arm then leaves the while loop, so the
session terminates instead of reading further requests. -/
theorem malformed_params_reply_then_break (s : ServerState) (cid : Nat)
    (nm : String) (d : Date) :
    dispatch_data s cid nm ("post hello") d = some (s, [(cid, missingSubjectMsg)], .terminated)
    ∧ dispatch_data s cid nm ("groupjoin") d = some (s, [(cid, invalidGroupjoinMsg)], .terminated)
    ∧ dispatch_data s cid nm ("grouppost g subj") d = some (s, [(cid, missingGroupSubjectMsg)], .terminated)
    ∧ dispatch_data s cid nm ("message") d = some (s, [(cid, missingIdMsg)], .terminated)
    ∧ dispatch_data s cid nm ("groupmessage g") d = some (s, [(cid, missingGroupIdMsg)], .terminated) := by
  refine ⟨?_, ?_, ?_, ?_, ?_⟩ <;> rfl

/-- C6: the handshake group listing never carries the ellipsis marker,
whatever the number of groups: line 106 tests the length of the slice
already cut to 5 names, so the marker branch is unreachable. -/
theorem handshake_reply_never_ellipsis (cid : Nat)
    (groups : List (String × List String)) (h : 0 < groups.length) :
    handshake_reply cid groups =
      some ("id " ++ pyStrNat cid ++ " Current server groups: " ++
        String.intercalate ", " ((groups.map Prod.fst).take 5)) := by
  have hlen : ((groups.map Prod.fst).take 5).length ≤ 5 := by
    simp [List.length_take]
  have hpos : 0 < ((groups.map Prod.fst).take 5).length := by
    simp [List.length_take]
    omega
  simp only [handshake_reply, example_groups_message]
  rw [if_pos hpos, if_neg (by omega : ¬ ((groups.map Prod.fst).take 5).length > 5)]
  simp [String.append_assoc]

/-- Witness for C6: six groups exist, yet the reply lists the first five
names with no ellipsis marker appended. -/
theorem handshake_reply_never_ellipsis_witness :
    0 < ([("default", []), ("a", []), ("b", []), ("c", []), ("d", []), ("e", [])] :
        List (String × List String)).length
    ∧ handshake_reply 0 [("default", []), ("a", []), ("b", []), ("c", []), ("d", []), ("e", [])] =
        some ("id 0 Current server groups: default, a, b, c, d") :=
  ⟨by decide, by
    rw [handshake_reply_never_ellipsis 0 _ (by decide)]
    rfl⟩

/-- C2 counterexample: alice and bob are both connected members of g;
when alice posts, the notice list contains an entry for session 0, which
is alice herself: the broadcast loop of lines 304-306 has no exclusion
of the acting sender. -/
theorem post_notice_sent_to_sender_too :
    handle_post sTwo 0 ("g") ("s") [("b")] d0 =
      some ({ sTwo with
          boards := [("default", []), ("g", [(0, ⟨"alice", d0, "s", "b", ["alice", "bob"]⟩)])] },
        [(0, post_notice ("g") ("alice") 0), (1, post_notice ("g") ("alice") 0)]) := by rfl

/-- C10 counterexample: the parameter 007 is not the decimal
representation of any of the existing ids 0..7, yet int turns it into 7
and the read succeeds with the message content instead of the not-found
reply. -/
theorem noncanonical_id_param_reads_message :
    ((List.range 8).map pyStrNat).contains ("007") = false
    ∧ handle_message sEight 0 ("g") ("007") = some [(0, message_text msgA)] := by
  refine ⟨by decide, ?_⟩
  rfl

/-- Closed form of a successful post: the exact state update and the
exact notice list produced by handle_post when the sender is a member
and the board exists. -/
theorem handle_post_eq (s : ServerState) (cid : Nat) (g subj : String)
    (body : List String) (d : Date) (info : ClientInfo) (members : List String)
    (board : List (Nat × Message))
    (h1 : s.connected_clients.lookup cid = some info)
    (h2 : s.groups.lookup g = some members)
    (h3 : info.name ∈ members)
    (hb : s.boards.lookup g = some board) :
    handle_post s cid g subj body d =
      some ({ s with boards := alistSet s.boards g (alistSet board board.length
          ⟨info.name, d, subj, String.intercalate " " body, members⟩) },
        s.connected_clients.filterMap fun p =>
          if p.2.name ∈ members then some (p.1, post_notice g info.name board.length)
          else none) := by
  simp [handle_post, h1, h2, h3, hb]

/-- C2 amended: a successful post sends its notice to the session of the
sender and to every connected session whose username is in the member
list, and to nothing else; the sender is not excluded. -/
theorem post_notice_to_all_member_sessions (s : ServerState) (cid : Nat)
    (g subj : String) (body : List String) (d : Date) (info : ClientInfo)
    (members : List String) (board : List (Nat × Message))
    (h1 : s.connected_clients.lookup cid = some info)
    (h2 : s.groups.lookup g = some members)
    (h3 : info.name ∈ members)
    (hb : s.boards.lookup g = some board) :
    ∃ s1 outs, handle_post s cid g subj body d = some (s1, outs)
      ∧ (cid, post_notice g info.name board.length) ∈ outs
      ∧ (∀ p ∈ s.connected_clients, p.2.name ∈ members →
          (p.1, post_notice g info.name board.length) ∈ outs)
      ∧ (∀ q ∈ outs, q.2 = post_notice g info.name board.length ∧
          ∃ p ∈ s.connected_clients, p.1 = q.1 ∧ p.2.name ∈ members) := by
  refine ⟨_, _, handle_post_eq s cid g subj body d info members board h1 h2 h3 hb, ?_, ?_, ?_⟩
  · exact List.mem_filterMap.mpr ⟨(cid, info), mem_of_lookup_some _ _ _ h1, by simp [h3]⟩
  · intro p hp hmem
    exact List.mem_filterMap.mpr ⟨p, hp, by simp [hmem]⟩
  · intro q hq
    obtain ⟨p, hp, hf⟩ := List.mem_filterMap.mp hq
    by_cases hm : p.2.name ∈ members
    · rw [if_pos hm] at hf
      cases hf
      exact ⟨rfl, p, hp, rfl, hm⟩
    · rw [if_neg hm] at hf
      cases hf

/-- Witness for the amended C2: in the two-member state, the sender
alice (session 0) is among the receivers of her own post notice. -/
theorem post_notice_to_all_member_sessions_witness :
    sTwo.connected_clients.lookup 0 = some ⟨"alice", "g"⟩
    ∧ sTwo.groups.lookup ("g") = some ["alice", "bob"]
    ∧ ("alice" : String) ∈ ["alice", "bob"]
    ∧ sTwo.boards.lookup ("g") = some []
    ∧ ∃ s1 outs, handle_post sTwo 0 ("g") ("s") [("b")] d0 = some (s1, outs)
        ∧ (0, post_notice ("g") ("alice") 0) ∈ outs :=
  ⟨rfl, rfl, by decide, rfl, by
    obtain ⟨s1, outs, he, hsender, -, -⟩ :=
      post_notice_to_all_member_sessions sTwo 0 ("g") ("s") [("b")] d0
        ⟨"alice", "g"⟩ ["alice", "bob"] [] rfl rfl (by decide) rfl
    exact ⟨s1, outs, he, hsender⟩⟩

/-- One post request of a driver run: poster session, subject, body
words and posting date. -/
structure PostReq where
  cid : Nat
  subject : String
  body : List String
  date : Date

/-- Driver for C4: apply handle_post once per request, requiring every
post to be the successful kind (registered session, member of the
group, board present), and record the id each post assigns, namely the
board size at the moment of posting (line 295). -/
def postSeq (s : ServerState) (g : String) : List PostReq → Option (ServerState × List Nat)
  | [] => some (s, [])
  | r :: rs =>
    match s.connected_clients.lookup r.cid, s.groups.lookup g, s.boards.lookup g with
    | some info, some members, some board =>
      if info.name ∈ members then
        match handle_post s r.cid g r.subject r.body r.date with
        | some (s1, _) =>
          match postSeq s1 g rs with
          | some (s2, ids) => some (s2, board.length :: ids)
          | none => none
        | none => none
      else none
    | _, _, _ => none

/-- Invariant step for C4: from a board whose key list is range n, a
sequence of successful posts assigns exactly the ids n, n+1, ... and
leaves the key list equal to a longer range. -/
theorem postSeq_spec (g : String) : ∀ (reqs : List PostReq) (s : ServerState) (n : Nat)
    (board : List (Nat × Message)),
    s.boards.lookup g = some board → board.map Prod.fst = List.range n →
    ∀ s2 ids, postSeq s g reqs = some (s2, ids) →
      ids = List.range' n reqs.length ∧
      ∃ board2, s2.boards.lookup g = some board2 ∧
        board2.map Prod.fst = List.range (n + reqs.length) := by
  intro reqs
  induction reqs with
  | nil =>
    intro s n board hb hkeys s2 ids hrun
    simp only [postSeq, Option.some.injEq, Prod.mk.injEq] at hrun
    obtain ⟨hs, hids⟩ := hrun
    subst hs
    refine ⟨by rw [← hids]; rfl, board, hb, by simpa using hkeys⟩
  | cons r rs ih =>
    intro s n board hb hkeys s2 ids hrun
    have hlen : board.length = n := by
      have := congrArg List.length hkeys
      simpa using this
    simp only [postSeq] at hrun
    rcases hcc : s.connected_clients.lookup r.cid with _ | info <;> rw [hcc] at hrun
    · simp at hrun
    · rcases hg : s.groups.lookup g with _ | members <;> rw [hg] at hrun
      · simp at hrun
      · rw [hb] at hrun
        dsimp only at hrun
        by_cases hmem : info.name ∈ members
        · rw [if_pos hmem] at hrun
          rw [handle_post_eq s r.cid g r.subject r.body r.date info members board
            hcc hg hmem hb] at hrun
          dsimp only at hrun
          have hnewlookup :
              (alistSet s.boards g (alistSet board board.length
                ⟨info.name, r.date, r.subject, String.intercalate " " r.body, members⟩)).lookup g =
              some (board ++ [(n, ⟨info.name, r.date, r.subject,
                String.intercalate " " r.body, members⟩)]) := by
            rw [lookup_alistSet_self]
            rw [hlen]
            rw [alistSet_eq_append]
            apply lookup_eq_none_of_not_mem_keys
            rw [hkeys]
            simp
          have hnewkeys : (board ++ [(n, (⟨info.name, r.date, r.subject,
              String.intercalate " " r.body, members⟩ : Message))]).map Prod.fst =
              List.range (n + 1) := by
            rw [List.map_append, hkeys, List.range_succ]
            rfl
          rcases hps : postSeq ({ s with boards := alistSet s.boards g (alistSet board board.length
              ⟨info.name, r.date, r.subject, String.intercalate " " r.body, members⟩) }) g rs
            with _ | result <;> rw [hps] at hrun
          · simp at hrun
          · obtain ⟨s2x, idsx⟩ := result
            simp only [Option.some.injEq, Prod.mk.injEq] at hrun
            obtain ⟨hs2, hids⟩ := hrun
            obtain ⟨hidsx, board2, hb2, hkeys2⟩ :=
              ih _ (n + 1) _ hnewlookup hnewkeys s2x idsx hps
            constructor
            · rw [← hids, hidsx, hlen]
              rfl
            · refine ⟨board2, ?_, ?_⟩
              · rw [← hs2]
                exact hb2
              · rw [hkeys2]
                have h3 : n + 1 + rs.length = n + (r :: rs).length := by
                  simp [List.length_cons]
                  omega
                rw [h3]
        · rw [if_neg hmem] at hrun
          simp at hrun

/-- C4: starting from an empty board, any run of successful posts to a
group assigns the ids 0, 1, ..., N-1 in order, each equal to the board
size at the moment of posting, and leaves the board keyed by exactly
that range. -/
theorem post_ids_sequential (g : String) (reqs : List PostReq) (s s2 : ServerState)
    (ids : List Nat)
    (hb : s.boards.lookup g = some [])
    (hrun : postSeq s g reqs = some (s2, ids)) :
    ids = List.range reqs.length
    ∧ ∃ board2, s2.boards.lookup g = some board2 ∧
        board2.map Prod.fst = List.range reqs.length := by
  have h := postSeq_spec g reqs s 0 [] hb (by simp) s2 ids hrun
  obtain ⟨hids, board2, hb2, hkeys2⟩ := h
  refine ⟨?_, board2, hb2, by simpa using hkeys2⟩
  rw [hids, List.range_eq_range']

/-- Two concrete posts used by the C4 witness. -/
def reqs2 : List PostReq := [⟨0, "s", ["b"], d0⟩, ⟨1, "t", ["c"], d0⟩]

/-- Witness for C4: alice then bob post to the empty board of g and the
assigned ids are exactly 0 and 1. -/
theorem post_ids_sequential_witness :
    sTwo.boards.lookup ("g") = some []
    ∧ ∃ s2 ids, postSeq sTwo ("g") reqs2 = some (s2, ids) ∧ ids = List.range 2 := by
  refine ⟨rfl, ?_⟩
  obtain ⟨s2, ids, h⟩ : ∃ s2 ids, postSeq sTwo ("g") reqs2 = some (s2, ids) := ⟨_, _, rfl⟩
  exact ⟨s2, ids, h, (post_ids_sequential ("g") reqs2 sTwo s2 ids rfl h).1⟩

/-- The board backfill loop of lines 236-238 only ever inserts boards
under keys that have none, so every existing board entry survives it. -/
theorem backfill_preserves (keys : List (String × List String)) :
    ∀ (bds : List (String × List (Nat × Message))) (k : String)
      (v : List (Nat × Message)), bds.lookup k = some v →
      (keys.foldl (fun bds p => if (bds.lookup p.1).isNone then alistSet bds p.1 [] else bds)
        bds).lookup k = some v := by
  induction keys with
  | nil => intro bds k v h; exact h
  | cons p rest ih =>
    intro bds k v h
    simp only [List.foldl]
    apply ih
    by_cases hc : (bds.lookup p.1).isNone
    · rw [if_pos hc]
      exact lookup_some_alistSet_new bds k p.1 v [] (Option.isNone_iff_eq_none.mp hc) h
    · rw [if_neg hc]
      exact h

/-- Leaving a group never touches the board store at all. -/
theorem handle_leave_preserves_boards (s : ServerState) (cid : Nat) (g : String)
    (s1 : ServerState) (outs : Sends) (h : handle_leave s cid g = some (s1, outs)) :
    s1.boards = s.boards := by
  unfold handle_leave at h
  rcases hcc : s.connected_clients.lookup cid with _ | info <;> rw [hcc] at h
  · simp at h
  · rcases hg : s.groups.lookup g with _ | members <;> rw [hg] at h
    · simp at h
    · dsimp only at h
      split at h
      · simp only [Option.some.injEq, Prod.mk.injEq] at h
        obtain ⟨h1, -⟩ := h
        rw [← h1]
      · simp only [Option.some.injEq, Prod.mk.injEq] at h
        obtain ⟨h1, -⟩ := h
        rw [← h1]

/-- Registering a connecting client keeps every existing board entry,
message for message. -/
theorem add_clients_groups_preserves_boards (s : ServerState) (cid : Nat)
    (nm grp g2 : String) (b : List (Nat × Message))
    (h : s.boards.lookup g2 = some b) :
    (add_clients_groups s cid nm grp).boards.lookup g2 = some b := by
  unfold add_clients_groups
  dsimp only
  apply backfill_preserves
  by_cases hc : (s.boards.lookup ("default")).isNone
  · rw [if_pos hc]
    exact lookup_some_alistSet_new s.boards g2 ("default") b [] (Option.isNone_iff_eq_none.mp hc) h
  · rw [if_neg hc]
    exact h

/-- Joining a group leaves every existing board entry in place, as long
as a group whose name already owns a board is present in the directory
(line 260 would otherwise replace that board with an empty one). -/
theorem handle_join_preserves_boards (s : ServerState) (cid : Nat) (g : String)
    (s1 : ServerState) (outs : Sends)
    (hcov : (s.boards.lookup g).isSome → (s.groups.lookup g).isSome)
    (h : handle_join s cid g = some (s1, outs)) :
    ∀ (g2 : String) (b : List (Nat × Message)),
      s.boards.lookup g2 = some b → s1.boards.lookup g2 = some b := by
  unfold handle_join at h
  rcases hcc : s.connected_clients.lookup cid with _ | info <;> rw [hcc] at h
  · simp at h
  · dsimp only at h
    rcases hg : s.groups.lookup g with _ | members <;> rw [hg] at h
    · have hbnone : s.boards.lookup g = none := by
        cases hbg : s.boards.lookup g with
        | none => rfl
        | some b0 =>
          have hx := hcov (by rw [hbg]; rfl)
          rw [hg] at hx
          simp at hx
      simp only [Option.some.injEq, Prod.mk.injEq] at h
      obtain ⟨h1, -⟩ := h
      intro g2 b hb
      rw [← h1]
      exact lookup_some_alistSet_new s.boards g2 g b [] hbnone hb
    · dsimp only at h
      split at h
      · simp only [Option.some.injEq, Prod.mk.injEq] at h
        obtain ⟨h1, -⟩ := h
        intro g2 b hb
        rw [← h1]
        exact hb
      · rcases hbg : s.boards.lookup g with _ | board <;> rw [hbg] at h
        · simp at h
        · dsimp only at h
          simp only [Option.some.injEq, Prod.mk.injEq] at h
          obtain ⟨h1, -⟩ := h
          intro g2 b hb
          rw [← h1]
          exact hb

/-- C7: the three membership-changing operations, leaving a group,
joining a group, and connecting, never alter any already stored message,
so the members-at-post snapshot of every previously posted message is
unchanged (for a join, provided every board key is a directory key, as
is the case for every state the server itself builds). -/
theorem membership_changes_preserve_messages :
    (∀ (s : ServerState) (cid : Nat) (g : String) (s1 : ServerState) (outs : Sends),
      handle_leave s cid g = some (s1, outs) → s1.boards = s.boards)
    ∧ (∀ (s : ServerState) (cid : Nat) (nm grp g2 : String) (b : List (Nat × Message)),
        s.boards.lookup g2 = some b →
        (add_clients_groups s cid nm grp).boards.lookup g2 = some b)
    ∧ (∀ (s : ServerState) (cid : Nat) (g : String) (s1 : ServerState) (outs : Sends),
        ((s.boards.lookup g).isSome → (s.groups.lookup g).isSome) →
        handle_join s cid g = some (s1, outs) →
        ∀ (g2 : String) (b : List (Nat × Message)),
          s.boards.lookup g2 = some b → s1.boards.lookup g2 = some b) :=
  ⟨handle_leave_preserves_boards, add_clients_groups_preserves_boards,
    handle_join_preserves_boards⟩

/-- Two-member state holding one stored message, for the C7 witness. -/
def sMsg : ServerState :=
  { sTwo with boards := [("default", []), ("g", [(0, msgA)])] }

/-- Witness for C7: in a state with one stored message, a leave by bob,
a connect by carol, and a join of a fresh group by alice all keep that
message untouched. -/
theorem membership_changes_preserve_messages_witness :
    (∃ s1 outs, handle_leave sMsg 1 ("g") = some (s1, outs) ∧ s1.boards = sMsg.boards)
    ∧ (add_clients_groups sMsg 2 ("carol") ("default")).boards.lookup ("g") = some [(0, msgA)]
    ∧ (∃ s1 outs, handle_join sMsg 0 ("h") = some (s1, outs)
        ∧ s1.boards.lookup ("g") = some [(0, msgA)]) := by
  refine ⟨?_, ?_, ?_⟩
  · obtain ⟨s1, outs, h⟩ : ∃ s1 outs, handle_leave sMsg 1 ("g") = some (s1, outs) :=
      ⟨_, _, rfl⟩
    exact ⟨s1, outs, h, membership_changes_preserve_messages.1 sMsg 1 ("g") s1 outs h⟩
  · exact membership_changes_preserve_messages.2.1 sMsg 2 ("carol") ("default") ("g")
      [(0, msgA)] rfl
  · obtain ⟨s1, outs, h⟩ : ∃ s1 outs, handle_join sMsg 0 ("h") = some (s1, outs) :=
      ⟨_, _, rfl⟩
    exact ⟨s1, outs, h, membership_changes_preserve_messages.2.2 sMsg 0 ("h") s1 outs
      (by decide) h ("g") [(0, msgA)] rfl⟩

/-- C10 amended: a message read by a group member whose id parameter
either fails to parse through the Python int built-in or parses to a
value that is no key of the board is answered with the not-found reply,
the state is left untouched, and the dispatch loop goes on to the next
request for both the message and the groupmessage verbs. -/
theorem unparseable_or_missing_id_not_found (s : ServerState) (cid : Nat)
    (g p nm : String) (d : Date) (info : ClientInfo) (members : List String)
    (h1 : s.connected_clients.lookup cid = some info)
    (h2 : s.groups.lookup g = some members)
    (h3 : info.name ∈ members)
    (hbad : pyParseInt p = none ∨ ∃ i, pyParseInt p = some i ∧
      (i < 0 ∨ (s.boards.lookup g).bind (fun board => board.lookup i.toNat) = none)) :
    handle_message s cid g p = some [(cid, notFoundMsg)]
    ∧ dispatch_command s cid nm ("groupmessage") [g, p] d =
        some (s, [(cid, notFoundMsg)], .next)
    ∧ (g = "default" → dispatch_command s cid nm ("message") [p] d =
        some (s, [(cid, notFoundMsg)], .next)) := by
  have hmsg : handle_message s cid g p = some [(cid, notFoundMsg)] := by
    rcases hbad with hnone | ⟨i, hp, hrest⟩
    · simp [handle_message, h1, h2, h3, hnone]
    · rcases hrest with hneg | hmiss
      · simp [handle_message, h1, h2, h3, hp, hneg]
      · by_cases hi : i < 0
        · simp [handle_message, h1, h2, h3, hp, hi]
        · rcases hbl : s.boards.lookup g with _ | board <;> rw [hbl] at hmiss
          · simp [handle_message, h1, h2, h3, hp, hi, hbl]
          · simp only [Option.some_bind] at hmiss
            simp [handle_message, h1, h2, h3, hp, hi, hbl, hmiss]
  refine ⟨hmsg, ?_, ?_⟩
  · have hd : dispatch_command s cid nm ("groupmessage") [g, p] d =
        (match handle_message s cid g p with
          | some outs => some (s, outs, LoopOutcome.next)
          | none => none) := rfl
    rw [hd, hmsg]
  · intro hdef
    subst hdef
    have hd : dispatch_command s cid nm ("message") [p] d =
        (match handle_message s cid ("default") p with
          | some outs => some (s, outs, LoopOutcome.next)
          | none => none) := rfl
    rw [hd, hmsg]

/-- Witness for the amended C10: alice, a member of g, asks for the
non-numeric id abc and for the absent id 5, and both reads are answered
with the not-found reply while the loop continues. -/
theorem unparseable_or_missing_id_not_found_witness :
    sEight.connected_clients.lookup 0 = some ⟨"alice", "g"⟩
    ∧ sEight.groups.lookup ("g") = some ["alice"]
    ∧ ("alice" : String) ∈ ["alice"]
    ∧ pyParseInt ("abc") = none
    ∧ handle_message sEight 0 ("g") ("abc") = some [(0, notFoundMsg)]
    ∧ dispatch_command sEight 0 ("alice") ("groupmessage") [("g"), ("abc")] d0 =
        some (sEight, [(0, notFoundMsg)], .next) := by
  have h := unparseable_or_missing_id_not_found sEight 0 ("g") ("abc") ("alice") d0
    ⟨"alice", "g"⟩ ["alice"] rfl rfl (by decide) (Or.inl rfl)
  exact ⟨rfl, rfl, by decide, rfl, h.1, h.2.1⟩

/-- The ten decimal digit characters. -/
def decDigits : List Char := ['0', '1', '2', '3', '4', '5', '6', '7', '8', '9']

theorem digitChar_mem_decDigits (d : Nat) (h : d < 10) : Nat.digitChar d ∈ decDigits := by
  interval_cases d <;> decide

theorem decDigit_props (c : Char) (h : c ∈ decDigits) :
    c.isDigit = true ∧ (c == '_') = false ∧ c.isWhitespace = false ∧
    (c == '+') = false ∧ (c == '-') = false := by
  fin_cases h <;> exact (by decide)

theorem go_mem : ∀ fuel n, n < fuel → ∀ c ∈ natDecimalDigitsGo fuel n, c ∈ decDigits := by
  intro fuel
  induction fuel with
  | zero => intro n h; omega
  | succ f ih =>
    intro n h c hc
    have hunf : natDecimalDigitsGo (f + 1) n =
        if n < 10 then [Nat.digitChar n]
        else natDecimalDigitsGo f (n / 10) ++ [Nat.digitChar (n % 10)] := rfl
    rw [hunf] at hc
    by_cases h10 : n < 10
    · rw [if_pos h10] at hc
      simp at hc
      subst hc
      exact digitChar_mem_decDigits n h10
    · rw [if_neg h10] at hc
      have hdiv : n / 10 < f := by
        have hlt : n / 10 < n := Nat.div_lt_self (by omega) (by omega)
        omega
      rcases List.mem_append.mp hc with h1 | h2
      · exact ih (n / 10) hdiv c h1
      · simp at h2
        subst h2
        exact digitChar_mem_decDigits (n % 10) (Nat.mod_lt _ (by omega))

theorem go_ne_nil : ∀ fuel n, n < fuel → natDecimalDigitsGo fuel n ≠ [] := by
  intro fuel n h
  cases fuel with
  | zero => omega
  | succ f =>
    have hunf : natDecimalDigitsGo (f + 1) n =
        if n < 10 then [Nat.digitChar n]
        else natDecimalDigitsGo f (n / 10) ++ [Nat.digitChar (n % 10)] := rfl
    rw [hunf]
    by_cases h10 : n < 10
    · rw [if_pos h10]; simp
    · rw [if_neg h10]; simp

theorem pyStep_digitChar (d : Nat) (h : d < 10) (a : Nat) :
    pyStep a (Nat.digitChar d) = a * 10 + d := by
  interval_cases d <;> rfl

theorem go_foldl : ∀ fuel n, n < fuel → ∀ acc,
    (natDecimalDigitsGo fuel n).foldl pyStep acc =
      acc * 10 ^ (natDecimalDigitsGo fuel n).length + n := by
  intro fuel
  induction fuel with
  | zero => intro n h; omega
  | succ f ih =>
    intro n h acc
    have hunf : natDecimalDigitsGo (f + 1) n =
        if n < 10 then [Nat.digitChar n]
        else natDecimalDigitsGo f (n / 10) ++ [Nat.digitChar (n % 10)] := rfl
    rw [hunf]
    by_cases h10 : n < 10
    · rw [if_pos h10]
      simp [List.foldl, pyStep_digitChar n h10 acc]
    · rw [if_neg h10]
      have hdiv : n / 10 < f := by
        have hlt : n / 10 < n := Nat.div_lt_self (by omega) (by omega)
        omega
      rw [List.foldl_append]
      have hinner := ih (n / 10) hdiv acc
      simp only [List.foldl_cons, List.foldl_nil]
      rw [hinner, pyStep_digitChar (n % 10) (Nat.mod_lt _ (by omega))]
      have h2 : n / 10 * 10 + n % 10 = n := by omega
      simp only [List.length_append, List.length_cons, List.length_nil]
      calc (acc * 10 ^ (natDecimalDigitsGo f (n / 10)).length + n / 10) * 10 + n % 10
          = acc * (10 ^ (natDecimalDigitsGo f (n / 10)).length * 10) +
              (n / 10 * 10 + n % 10) := by ring
        _ = acc * 10 ^ ((natDecimalDigitsGo f (n / 10)).length + (0 + 1)) + n := by
            rw [h2, Nat.zero_add, pow_succ]

theorem pyDigitsAux_all_digits : ∀ (l : List Char) (acc : Nat),
    (∀ c ∈ l, c ∈ decDigits) → pyDigitsAux l acc = some (l.foldl pyStep acc) := by
  intro l
  induction l with
  | nil => intro acc h; rfl
  | cons c rest ih =>
    intro acc h
    have props := decDigit_props c (h c (by simp))
    have hunf : pyDigitsAux (c :: rest) acc =
        if c == '_' then pyDigitsLoop rest acc true
        else if c.isDigit then pyDigitsAux rest (pyStep acc c)
        else none := rfl
    rw [hunf]
    simp only [props.2.1, Bool.false_eq_true, if_false, props.1, if_true]
    rw [ih (pyStep acc c) (fun c2 hc2 => h c2 (by simp [hc2]))]
    rfl

theorem pyParseNat_digits (l : List Char) (hne : l ≠ [])
    (h : ∀ c ∈ l, c ∈ decDigits) : pyParseNat l = some (l.foldl pyStep 0) := by
  cases l with
  | nil => exact absurd rfl hne
  | cons c rest =>
    have props := decDigit_props c (h c (by simp))
    have hunf : pyParseNat (c :: rest) =
        if c.isDigit then pyDigitsAux rest (pyStep 0 c) else none := rfl
    rw [hunf]
    simp only [props.1, if_true]
    rw [pyDigitsAux_all_digits rest (pyStep 0 c) (fun c2 hc2 => h c2 (by simp [hc2]))]
    rfl

theorem dropWhile_ws_of_digits (l : List Char) (h : ∀ c ∈ l, c ∈ decDigits) :
    l.dropWhile Char.isWhitespace = l := by
  cases l with
  | nil => rfl
  | cons c rest =>
    have props := decDigit_props c (h c (by simp))
    simp [List.dropWhile, props.2.2.1]

theorem stripPy_digits (l : List Char) (h : ∀ c ∈ l, c ∈ decDigits) :
    stripPy l = l := by
  unfold stripPy
  rw [dropWhile_ws_of_digits l h]
  rw [dropWhile_ws_of_digits l.reverse (fun c hc => h c (List.mem_reverse.mp hc))]
  exact List.reverse_reverse l

/-- Round trip of the Python str and int built-ins on a natural number:
the decimal string written by json.dump for a message id is parsed back
to the same id by line 65. -/
theorem pyParseInt_pyStrNat (n : Nat) : pyParseInt (pyStrNat n) = some (Int.ofNat n) := by
  have hmem : ∀ c ∈ natDecimalDigits n, c ∈ decDigits := go_mem (n + 1) n (by omega)
  have hne : natDecimalDigits n ≠ [] := go_ne_nil (n + 1) n (by omega)
  have hfold : (natDecimalDigits n).foldl pyStep 0 = n := by
    have h := go_foldl (n + 1) n (by omega) 0
    simpa [natDecimalDigits] using h
  have hstrip : stripPy (pyStrNat n).toList = natDecimalDigits n :=
    stripPy_digits (natDecimalDigits n) hmem
  simp only [pyParseInt]
  rw [hstrip]
  rcases hl : natDecimalDigits n with _ | ⟨c, rest⟩
  · exact absurd hl hne
  · have hc : c ∈ decDigits := by
      have hx := hmem c
      rw [hl] at hx
      exact hx (by simp)
    have props := decDigit_props c hc
    have hmem2 : ∀ x ∈ c :: rest, x ∈ decDigits := by
      rw [← hl]
      exact hmem
    dsimp only
    simp only [props.2.2.2.1, props.2.2.2.2, Bool.false_eq_true, if_false]
    rw [pyParseNat_digits (c :: rest) (by simp) hmem2]
    rw [hl] at hfold
    rw [hfold]
    rfl

/-- Round trip of one serialized board: every dumped entry is loaded
back under its original integer id. -/
theorem loadEntries_dump (board : List (Nat × Message)) :
    loadEntries (board.map fun q => (pyStrNat q.1, serializeMessage q.2)) =
      some (board.map fun q => (q.1, serializeMessage q.2)) := by
  induction board with
  | nil => rfl
  | cons q qrest ih =>
    simp only [List.map_cons]
    have hunf : loadEntries ((pyStrNat q.1, serializeMessage q.2) ::
        qrest.map fun q => (pyStrNat q.1, serializeMessage q.2)) =
        (match pyParseInt (pyStrNat q.1) with
          | none => none
          | some i =>
            if i < 0 then none
            else
              match loadEntries (qrest.map fun q => (pyStrNat q.1, serializeMessage q.2)) with
              | none => none
              | some rest1 => some ((i.toNat, serializeMessage q.2) :: rest1)) := rfl
    rw [hunf, pyParseInt_pyStrNat]
    have hneg : ¬ (Int.ofNat q.1 < 0) := Int.not_lt.mpr (Int.ofNat_nonneg q.1)
    simp [hneg, ih]

/-- C9: the persistence round trip is faithful.  Dumping the group
directory and reloading it is the identity, and dumping the board store
(ids as decimal strings, dates as ISO-8601 text) then loading it back
(ids converted to integers again) restores every group, every message
id, and every sender, subject, body and members-at-post list exactly;
only the date field stays in its serialized string form, which the
loader never converts back. -/
theorem persistence_roundtrip (gs : List (String × List String))
    (bs : List (String × List (Nat × Message))) :
    loadGroups (dumpGroups gs) = gs
    ∧ loadBoards (dumpBoards bs) =
        some (bs.map fun p => (p.1, p.2.map fun q => (q.1, serializeMessage q.2))) := by
  refine ⟨rfl, ?_⟩
  induction bs with
  | nil => rfl
  | cons p rest ih =>
    simp only [dumpBoards, List.map_cons] at ih ⊢
    have hunf : loadBoards ((p.1, p.2.map fun q => (pyStrNat q.1, serializeMessage q.2)) ::
        rest.map fun p => (p.1, p.2.map fun q => (pyStrNat q.1, serializeMessage q.2))) =
        (match loadEntries (p.2.map fun q => (pyStrNat q.1, serializeMessage q.2)) with
          | none => none
          | some entries =>
            match loadBoards (rest.map fun p =>
                (p.1, p.2.map fun q => (pyStrNat q.1, serializeMessage q.2))) with
            | none => none
            | some rest1 => some ((p.1, entries) :: rest1)) := rfl
    rw [hunf, loadEntries_dump, ih]
